import Mathlib

/-!
A verification development for the scheduler repository: the availability
pipeline (`src/service/availability.ts`), the bookings data access layer
(`src/service/bookings.ts`), and the booking commit, reschedule and cancel
handlers. Instants are modelled as integer minutes on the UTC timeline;
local wall-clock time in the organizer timezone is likewise integer minutes
on the local calendar timeline. A timezone is a pair of conversion
functions between the two timelines, kept abstract so that statements hold
for every zone, including zones with DST transitions. The luxon calendar
operations used by the source (startOf day, plus days, set hour and minute,
weekday) act on the local timeline and are modelled directly.
-/

namespace Scheduler

/-- Minutes in a calendar day. -/
def minutesPerDay : Int := 1440

/-- luxon startOf day on a wall-clock time given in minutes: floor to the
day boundary (Int division is floor division for a positive divisor). -/
def startOfDay (t : Int) : Int := minutesPerDay * (t / minutesPerDay)

/-- The calendar day index of a wall-clock time in minutes. -/
def localDay (t : Int) : Int := t / minutesPerDay

/-- luxon set hour and minute (with second and millisecond zeroed): keep
the calendar day, replace the time of day. -/
def setTime (t h m : Int) : Int := startOfDay t + 60 * h + m

/-- luxon weekday of a calendar day index: 1 = Monday .. 7 = Sunday.
Day 0 of the epoch (1970-01-01) is a Thursday. -/
def luxonWeekday (d : Int) : Int := (d + 3) % 7 + 1

/-- The day-of-week encoding the source compares against the stored
working-hours rows: `weekday === 7 ? "0" : weekday.toString()`, that is
0 = Sunday .. 6 = Saturday. -/
def dayOfWeekCode (d : Int) : Int :=
  if luxonWeekday d = 7 then 0 else luxonWeekday d

/-- A timezone: conversions between local wall minutes and UTC minutes.
Both directions are arbitrary functions, so every theorem quantified over a
`Zone` holds regardless of DST transitions inside the zone. -/
structure Zone where
  toUTC : Int → Int
  ofUTC : Int → Int

/-- The UTC zone: both conversions are the identity. -/
def Zone.utc : Zone := { toUTC := id, ofUTC := id }

/-- organizer_settings row (the fields the availability core reads).
`defaultMeetingDuration`, `preBookingBuffer` and `postBookingBuffer` are
minutes, `minBookingNotice` is hours, `maxBookingAdvance` is days.
`workingTimezone` is the resolved IANA zone. -/
structure OrganizerSettings where
  workingTimezone : Zone
  defaultMeetingDuration : Nat
  preBookingBuffer : Int
  postBookingBuffer : Int
  minBookingNotice : Int
  maxBookingAdvance : Nat

/-- working_hours row: the stored "HH:mm" strings are modelled by their
parsed hour and minute components (`split(":").map(Number)` in the source);
`dayOfWeek` is the numeric value of the stored day code string. -/
structure WorkingHours where
  userId : String
  dayOfWeek : Int
  startHour : Int
  startMin : Int
  endHour : Int
  endMin : Int
  isActive : Bool
  deletedAt : Option Int
deriving DecidableEq, Repr

/-- blackout_dates row: `date` is a UTC timestamp in minutes. -/
structure BlackoutDates where
  userId : String
  date : Int
  deletedAt : Option Int
deriving DecidableEq, Repr

/-- bookings row (the fields the claims mention; name, title, description
and metadata are carried by the real row but read by no verified path). -/
structure Booking where
  organizerId : String
  attendantEmail : String
  startTime : Int
  endTime : Int
  deletedAt : Option Int
deriving DecidableEq, Repr

/-- CandidateSlot of availability.ts: UTC instants plus duration. -/
structure CandidateSlot where
  startTimeUTC : Int
  endTimeUTC : Int
  duration : Nat
deriving DecidableEq, Repr

/-- BufferedBooking of availability.ts: the booking spread together with
its buffered and original UTC endpoints. -/
structure BufferedBooking where
  booking : Booking
  bufferedStartUTC : Int
  bufferedEndUTC : Int
  originalStartUTC : Int
  originalEndUTC : Int
deriving DecidableEq, Repr

/-- AvailableSlot of availability.ts (the timezone field is the constant
settings string and carries no data the claims mention; `available` is
always true on construction). -/
structure AvailableSlot where
  startTime : Int
  endTime : Int
  duration : Nat
  available : Bool
deriving DecidableEq, Repr

/-- TimeWindow of availability.ts. -/
structure TimeWindow where
  startInTZ : Int
  endInTZ : Int
  startUTC : Int
  endUTC : Int
deriving DecidableEq, Repr

/-- getTimeWindowInTimezone: now converted into the organizer zone, floored
to start of local day, plus maxBookingAdvance days floored again; both
bounds converted to UTC for the database range queries. -/
def getTimeWindowInTimezone (nowUTC : Int) (settings : OrganizerSettings) : TimeWindow :=
  let nowInTZ := settings.workingTimezone.ofUTC nowUTC
  let startInTZ := startOfDay nowInTZ
  let endInTZ := startOfDay (startInTZ + minutesPerDay * settings.maxBookingAdvance)
  { startInTZ := startInTZ
    endInTZ := endInTZ
    startUTC := settings.workingTimezone.toUTC startInTZ
    endUTC := settings.workingTimezone.toUTC endInTZ }

/-- The inner while loop of generateCandidateSlotsUTC: starting from the
block start, emit a slot of the default duration and advance by it, as long
as the slot end does not pass the block end. The source loop diverges when
the duration is zero (a value the settings validation excludes); the
embedding returns the empty list there so that the recursion terminates. -/
def slotLoop (tz : Zone) (dur : Nat) (workEnd : Int) (cursor : Int) : List CandidateSlot :=
  if h : 0 < dur ∧ cursor + dur ≤ workEnd then
    { startTimeUTC := tz.toUTC cursor
      endTimeUTC := tz.toUTC (cursor + dur)
      duration := dur } :: slotLoop tz dur workEnd (cursor + dur)
  else []
termination_by (workEnd - cursor).toNat
decreasing_by
  have h1 : (0 : Int) < dur := by exact_mod_cast h.1
  omega

/-- One iteration of the outer day loop: the working-hours rows whose day
code matches the current local day and which are active, each expanded into
slots over the block the stored hour and minute components span. -/
def slotsForDay (whs : List WorkingHours) (settings : OrganizerSettings)
    (currentDay : Int) : List CandidateSlot :=
  let dow := dayOfWeekCode (localDay currentDay)
  let dayWhs := whs.filter fun wh => wh.dayOfWeek == dow && wh.isActive
  dayWhs.flatMap fun wh =>
    let workStart := setTime currentDay wh.startHour wh.startMin
    let workEnd := setTime currentDay wh.endHour wh.endMin
    slotLoop settings.workingTimezone settings.defaultMeetingDuration workEnd workStart

/-- The outer while loop of generateCandidateSlotsUTC: iterate local
calendar days from the window start (plus one day each turn, a wall-clock
preserving luxon plus) while strictly before the window end. -/
def dayLoop (whs : List WorkingHours) (settings : OrganizerSettings)
    (windowEnd : Int) (currentDay : Int) : List CandidateSlot :=
  if h : currentDay < windowEnd then
    slotsForDay whs settings currentDay ++
      dayLoop whs settings windowEnd (currentDay + minutesPerDay)
  else []
termination_by (windowEnd - currentDay).toNat
decreasing_by
  simp only [minutesPerDay]
  omega

/-- generateCandidateSlotsUTC of availability.ts. -/
def generateCandidateSlotsUTC (windowStartInTZ windowEndInTZ : Int)
    (workingHours : List WorkingHours) (settings : OrganizerSettings) : List CandidateSlot :=
  dayLoop workingHours settings windowEndInTZ windowStartInTZ

/-- filterSlotsByBlackoutDates: keep a slot unless the local calendar day
of its UTC start equals the local calendar day of some blackout timestamp,
both normalized with startOf day in the organizer zone. -/
def filterSlotsByBlackoutDates (candidateSlots : List CandidateSlot)
    (blackoutDates : List BlackoutDates) (timezone : Zone) : List CandidateSlot :=
  candidateSlots.filter fun slot =>
    let slotDay := startOfDay (timezone.ofUTC slot.startTimeUTC)
    ! blackoutDates.any fun blackout =>
        let blackoutDay := startOfDay (timezone.ofUTC blackout.date)
        slotDay == blackoutDay

/-- applyBufferTimes: pad each booking by the pre and post buffers, in UTC. -/
def applyBufferTimes (bookings : List Booking) (settings : OrganizerSettings) :
    List BufferedBooking :=
  bookings.map fun booking =>
    { booking := booking
      bufferedStartUTC := booking.startTime - settings.preBookingBuffer
      bufferedEndUTC := booking.endTime + settings.postBookingBuffer
      originalStartUTC := booking.startTime
      originalEndUTC := booking.endTime }

/-- isSlotCollidingWithBooking: strict half-open overlap against the
buffered interval. -/
def isSlotCollidingWithBooking (slot : CandidateSlot) (booking : BufferedBooking) : Bool :=
  decide (slot.startTimeUTC < booking.bufferedEndUTC) &&
    decide (slot.endTimeUTC > booking.bufferedStartUTC)

/-- filterCollidingSlots: drop a slot that collides with any buffered
booking. -/
def filterCollidingSlots (candidateSlots : List CandidateSlot)
    (bufferedBookings : List BufferedBooking) : List CandidateSlot :=
  candidateSlots.filter fun slot =>
    ! bufferedBookings.any fun booking => isSlotCollidingWithBooking slot booking

/-- applyBusinessRulesToSlots: drop slots whose end is at or before now and
slots whose start is before now plus the minimum notice in hours. The
source reads the clock itself; the embedding takes the clock value as the
first argument. -/
def applyBusinessRulesToSlots (nowUTC : Int) (availableSlots : List CandidateSlot)
    (settings : OrganizerSettings) : List CandidateSlot :=
  let minNoticeUTC := nowUTC + 60 * settings.minBookingNotice
  availableSlots.filter fun slot =>
    if slot.endTimeUTC ≤ nowUTC then false
    else if slot.startTimeUTC < minNoticeUTC then false
    else true

/-- getWorkingHoursByUserId of bookings service layer: the rows of the
user that are not soft deleted. -/
def getWorkingHoursByUserId (table : List WorkingHours) (userId : String) :
    List WorkingHours :=
  table.filter fun wh => wh.userId == userId && wh.deletedAt.isNone

/-- getBlackoutDatesByUserIdAndDateRange: rows of the user whose date lies
between the window start and the end of the window end day (setHours
23:59:59.999, modelled at minute granularity on a UTC server clock), not
soft deleted. -/
def getBlackoutDatesByUserIdAndDateRange (table : List BlackoutDates) (userId : String)
    (startDate endDate : Int) : List BlackoutDates :=
  let endDateWithTime := startOfDay endDate + (minutesPerDay - 1)
  table.filter fun bd =>
    bd.userId == userId && decide (startDate ≤ bd.date) &&
      decide (bd.date ≤ endDateWithTime) && bd.deletedAt.isNone

/-- getBookingsByOrganizerInDateRange of src/service/bookings.ts: rows of
the organizer whose START time lies between the window start and the end
of the window end day, not soft deleted. Only the start time is range
checked; a booking that starts before the window start is not returned
even when it extends into the window. -/
def getBookingsByOrganizerInDateRange (table : List Booking) (organizerId : String)
    (startDateUTC endDateUTC : Int) : List Booking :=
  let endDateWithTime := startOfDay endDateUTC + (minutesPerDay - 1)
  table.filter fun b =>
    b.organizerId == organizerId && decide (startDateUTC ≤ b.startTime) &&
      decide (b.startTime ≤ endDateWithTime) && b.deletedAt.isNone

/-- Stable insertion of a slot into a list ascending by start time; models
the JavaScript sort comparator `a.startTime - b.startTime`. -/
def insertByStart (a : AvailableSlot) : List AvailableSlot → List AvailableSlot
  | [] => [a]
  | b :: bs =>
      if a.startTime < b.startTime then a :: b :: bs else b :: insertByStart a bs

/-- Sort ascending by start time (stable, as Array.prototype.sort is). -/
def sortByStartTime : List AvailableSlot → List AvailableSlot
  | [] => []
  | a :: as_ => insertByStart a (sortByStartTime as_)

/-- calculateAvailableSlots of availability.ts. The database reads are
passed in as the full tables they select from; the settings read is passed
as its result, `none` modelling the thrown "Organizer settings not found".
The clock is the last argument. -/
def calculateAvailableSlots (settingsRead : Option OrganizerSettings)
    (workingHoursTable : List WorkingHours) (blackoutTable : List BlackoutDates)
    (bookingsTable : List Booking) (organizerId : String) (nowUTC : Int) :
    Option (List AvailableSlot × OrganizerSettings) :=
  match settingsRead with
  | none => none
  | some settings =>
    let w := getTimeWindowInTimezone nowUTC settings
    let workingHours := getWorkingHoursByUserId workingHoursTable organizerId
    let blackoutDates :=
      getBlackoutDatesByUserIdAndDateRange blackoutTable organizerId w.startUTC w.endUTC
    let existingBookings :=
      getBookingsByOrganizerInDateRange bookingsTable organizerId w.startUTC w.endUTC
    let candidateSlots := generateCandidateSlotsUTC w.startInTZ w.endInTZ workingHours settings
    let afterBlackouts :=
      filterSlotsByBlackoutDates candidateSlots blackoutDates settings.workingTimezone
    let bufferedBookings := applyBufferTimes existingBookings settings
    let availableSlots := filterCollidingSlots afterBlackouts bufferedBookings
    let finalSlots := applyBusinessRulesToSlots nowUTC availableSlots settings
    let slots := sortByStartTime (finalSlots.map fun slot =>
      { startTime := slot.startTimeUTC
        endTime := slot.endTimeUTC
        duration := slot.duration
        available := true })
    some (slots, settings)

/-! ## Closed forms for the two generation loops -/

/-- The number of slots the inner while loop emits from a cursor: the
largest n with cursor + n * duration ≤ workEnd (0 when none fit). -/
def numSlots (workEnd cursor : Int) (dur : Nat) : Nat :=
  ((workEnd - cursor) / (dur : Int)).toNat

/-- The number of days the outer while loop visits: the ceiling of
(windowEnd - cursor) / 1440, with 0 when the window is empty. -/
def numDays (windowEnd cursor : Int) : Nat :=
  ((windowEnd - cursor + (minutesPerDay - 1)) / minutesPerDay).toNat

/-- The inner while loop emits exactly the arithmetic progression of
slots [cursor + k * duration, cursor + (k+1) * duration) for
k = 0, 1, ... while the slot end stays at or before the block end. -/
theorem slotLoop_eq (tz : Zone) (dur : Nat) (hdur : 0 < dur) (workEnd : Int) :
    ∀ cursor : Int, slotLoop tz dur workEnd cursor =
      (List.range (numSlots workEnd cursor dur)).map fun k =>
        { startTimeUTC := tz.toUTC (cursor + (dur : Int) * k)
          endTimeUTC := tz.toUTC (cursor + (dur : Int) * (k + 1))
          duration := dur } := by
  intro cursor
  have hd : (0 : Int) < (dur : Int) := by exact_mod_cast hdur
  generalize hn : (workEnd - cursor).toNat = n
  induction n using Nat.strong_induction_on generalizing cursor with
  | _ n ih =>
    rw [slotLoop]
    by_cases hc : cursor + (dur : Int) ≤ workEnd
    · rw [dif_pos ⟨hdur, hc⟩]
      rw [ih ((workEnd - (cursor + (dur : Int))).toNat) (by omega) (cursor + (dur : Int)) rfl]
      have hq1 : 1 ≤ (workEnd - cursor) / (dur : Int) :=
        (Int.le_ediv_iff_mul_le hd).mpr (by omega)
      have hqs : (workEnd - (cursor + (dur : Int))) / (dur : Int) =
          (workEnd - cursor) / (dur : Int) + (-1) := by
        rw [show workEnd - (cursor + (dur : Int)) = workEnd - cursor + (-1) * (dur : Int) by ring]
        exact Int.add_mul_ediv_right _ _ (by omega)
      have hns : numSlots workEnd cursor dur = numSlots workEnd (cursor + (dur : Int)) dur + 1 := by
        simp only [numSlots, hqs]
        omega
      rw [hns, List.range_succ_eq_map, List.map_cons, List.map_map]
      congr 1
      · simp
      · apply List.map_congr_left
        intro k _
        simp only [Function.comp_apply, Nat.succ_eq_add_one, Nat.cast_add, Nat.cast_one]
        have e1 : cursor + (dur : Int) + (dur : Int) * (k : Int) =
            cursor + (dur : Int) * ((k : Int) + 1) := by ring
        have e2 : cursor + (dur : Int) + (dur : Int) * ((k : Int) + 1) =
            cursor + (dur : Int) * ((k : Int) + 1 + 1) := by ring
        rw [e1, e2]
    · rw [dif_neg (by tauto)]
      have hq0 : numSlots workEnd cursor dur = 0 := by
        rcases le_or_lt 0 (workEnd - cursor) with hnn | hneg
        · have hlt : workEnd - cursor < (dur : Int) := by omega
          have h0 := Int.ediv_eq_zero_of_lt hnn hlt
          simp [numSlots, h0]
        · have hlt := Int.ediv_neg' hneg hd
          simp only [numSlots]
          omega
      rw [hq0]
      simp

/-- The outer while loop visits exactly the days cursor + 1440 * i for
i = 0 .. numDays - 1, concatenating the slots of each day. -/
theorem dayLoop_eq (whs : List WorkingHours) (settings : OrganizerSettings) (windowEnd : Int) :
    ∀ cursor : Int, dayLoop whs settings windowEnd cursor =
      (List.range (numDays windowEnd cursor)).flatMap fun i =>
        slotsForDay whs settings (cursor + minutesPerDay * i) := by
  intro cursor
  generalize hn : (windowEnd - cursor).toNat = n
  induction n using Nat.strong_induction_on generalizing cursor with
  | _ n ih =>
    rw [dayLoop]
    by_cases hc : cursor < windowEnd
    · rw [dif_pos hc]
      rw [ih ((windowEnd - (cursor + minutesPerDay)).toNat) (by simp only [minutesPerDay] at *; omega)
        (cursor + minutesPerDay) rfl]
      have hnd : numDays windowEnd cursor = numDays windowEnd (cursor + minutesPerDay) + 1 := by
        simp only [numDays, minutesPerDay]
        omega
      rw [hnd, List.range_succ_eq_map, List.flatMap_cons, List.flatMap_map]
      congr 1
      · simp
      · congr 1
        funext i
        simp only [Nat.succ_eq_add_one]
        congr 1
        push_cast
        ring
    · rw [dif_neg hc]
      have hq0 : numDays windowEnd cursor = 0 := by
        simp only [numDays, minutesPerDay]
        omega
      rw [hq0]
      simp

/-- generateCandidateSlotsUTC in closed form: for every day of the window
and every active working-hours block matching the local day of week, the
arithmetic progression of slots stepping by the meeting duration, with no
trailing slot passing the block end. -/
theorem generateCandidateSlotsUTC_eq (windowStartInTZ windowEndInTZ : Int)
    (workingHours : List WorkingHours) (settings : OrganizerSettings)
    (hdur : 0 < settings.defaultMeetingDuration) :
    generateCandidateSlotsUTC windowStartInTZ windowEndInTZ workingHours settings =
      (List.range (numDays windowEndInTZ windowStartInTZ)).flatMap fun i =>
        let day := windowStartInTZ + minutesPerDay * i
        (workingHours.filter fun wh =>
            wh.dayOfWeek == dayOfWeekCode (localDay day) && wh.isActive).flatMap fun wh =>
          let workStart := setTime day wh.startHour wh.startMin
          let workEnd := setTime day wh.endHour wh.endMin
          (List.range (numSlots workEnd workStart settings.defaultMeetingDuration)).map fun k =>
            { startTimeUTC := settings.workingTimezone.toUTC
                (workStart + (settings.defaultMeetingDuration : Int) * k)
              endTimeUTC := settings.workingTimezone.toUTC
                (workStart + (settings.defaultMeetingDuration : Int) * (k + 1))
              duration := settings.defaultMeetingDuration } := by
  rw [generateCandidateSlotsUTC, dayLoop_eq]
  congr 1
  funext i
  simp only [slotsForDay]
  congr 1
  funext wh
  rw [slotLoop_eq _ _ hdur]

/-! ## Membership facts about the pipeline -/

/-- Membership in the stable insertion is membership in the inserted
element or the list. -/
theorem mem_insertByStart (a x : AvailableSlot) (l : List AvailableSlot) :
    a ∈ insertByStart x l ↔ a = x ∨ a ∈ l := by
  induction l with
  | nil => simp [insertByStart]
  | cons b bs ih =>
    simp only [insertByStart]
    by_cases h : x.startTime < b.startTime
    · simp [h]
    · simp only [h, if_false, List.mem_cons, ih]
      tauto

/-- Sorting by start time preserves membership. -/
theorem mem_sortByStartTime (a : AvailableSlot) (l : List AvailableSlot) :
    a ∈ sortByStartTime l ↔ a ∈ l := by
  induction l with
  | nil => simp [sortByStartTime]
  | cons b bs ih => simp [sortByStartTime, mem_insertByStart, ih]

/-- Every slot the pipeline returns arises from a candidate slot that
survived the blackout, collision and business-rule filters; the survivor
has the same endpoints and duration. -/
theorem mem_calculateAvailableSlots
    (settings : OrganizerSettings) (wht : List WorkingHours) (bot : List BlackoutDates)
    (bkt : List Booking) (organizerId : String) (nowUTC : Int)
    (slots : List AvailableSlot) (settingsOut : OrganizerSettings)
    (hres : calculateAvailableSlots (some settings) wht bot bkt organizerId nowUTC
      = some (slots, settingsOut))
    (sl : AvailableSlot) (hsl : sl ∈ slots) :
    ∃ cs : CandidateSlot,
      cs ∈ applyBusinessRulesToSlots nowUTC
        (filterCollidingSlots
          (filterSlotsByBlackoutDates
            (generateCandidateSlotsUTC (getTimeWindowInTimezone nowUTC settings).startInTZ
              (getTimeWindowInTimezone nowUTC settings).endInTZ
              (getWorkingHoursByUserId wht organizerId) settings)
            (getBlackoutDatesByUserIdAndDateRange bot organizerId
              (getTimeWindowInTimezone nowUTC settings).startUTC
              (getTimeWindowInTimezone nowUTC settings).endUTC)
            settings.workingTimezone)
          (applyBufferTimes (getBookingsByOrganizerInDateRange bkt organizerId
            (getTimeWindowInTimezone nowUTC settings).startUTC
            (getTimeWindowInTimezone nowUTC settings).endUTC) settings))
        settings ∧
      sl.startTime = cs.startTimeUTC ∧ sl.endTime = cs.endTimeUTC ∧
      sl.duration = cs.duration := by
  simp only [calculateAvailableSlots, Option.some.injEq, Prod.mk.injEq] at hres
  obtain ⟨hslots, hset⟩ := hres
  subst hslots
  rw [mem_sortByStartTime, List.mem_map] at hsl
  obtain ⟨cs, hcs, heq⟩ := hsl
  subst heq
  exact ⟨cs, hcs, rfl, rfl, rfl⟩

/-- The central collision guarantee: a slot returned by the pipeline never
overlaps the buffered interval of a booking that the range query fetched,
that is a non-deleted booking of the organizer whose start time lies
between the window start and the end of the window end day. -/
theorem calculateAvailableSlots_no_overlap
    (settings : OrganizerSettings) (wht : List WorkingHours) (bot : List BlackoutDates)
    (bkt : List Booking) (organizerId : String) (nowUTC : Int)
    (slots : List AvailableSlot) (settingsOut : OrganizerSettings)
    (hres : calculateAvailableSlots (some settings) wht bot bkt organizerId nowUTC
      = some (slots, settingsOut))
    (b : Booking) (hb : b ∈ bkt) (horg : b.organizerId = organizerId)
    (hdel : b.deletedAt = none)
    (hlo : (getTimeWindowInTimezone nowUTC settings).startUTC ≤ b.startTime)
    (hhi : b.startTime ≤
      startOfDay (getTimeWindowInTimezone nowUTC settings).endUTC + (minutesPerDay - 1))
    (sl : AvailableSlot) (hsl : sl ∈ slots) :
    ¬(sl.startTime < b.endTime + settings.postBookingBuffer ∧
      sl.endTime > b.startTime - settings.preBookingBuffer) := by
  obtain ⟨cs, hcs, hs1, hs2, _⟩ :=
    mem_calculateAvailableSlots settings wht bot bkt organizerId nowUTC
      slots settingsOut hres sl hsl
  have hcoll : cs ∈ filterCollidingSlots
      (filterSlotsByBlackoutDates
        (generateCandidateSlotsUTC (getTimeWindowInTimezone nowUTC settings).startInTZ
          (getTimeWindowInTimezone nowUTC settings).endInTZ
          (getWorkingHoursByUserId wht organizerId) settings)
        (getBlackoutDatesByUserIdAndDateRange bot organizerId
          (getTimeWindowInTimezone nowUTC settings).startUTC
          (getTimeWindowInTimezone nowUTC settings).endUTC)
        settings.workingTimezone)
      (applyBufferTimes (getBookingsByOrganizerInDateRange bkt organizerId
        (getTimeWindowInTimezone nowUTC settings).startUTC
        (getTimeWindowInTimezone nowUTC settings).endUTC) settings) :=
    (List.mem_filter.mp hcs).1
  have hfetched : b ∈ getBookingsByOrganizerInDateRange bkt organizerId
      (getTimeWindowInTimezone nowUTC settings).startUTC
      (getTimeWindowInTimezone nowUTC settings).endUTC := by
    rw [getBookingsByOrganizerInDateRange, List.mem_filter]
    refine ⟨hb, ?_⟩
    simp [horg, hdel, hlo, hhi]
  have hbuf :
      ({ booking := b,
         bufferedStartUTC := b.startTime - settings.preBookingBuffer,
         bufferedEndUTC := b.endTime + settings.postBookingBuffer,
         originalStartUTC := b.startTime,
         originalEndUTC := b.endTime } : BufferedBooking) ∈
      applyBufferTimes (getBookingsByOrganizerInDateRange bkt organizerId
        (getTimeWindowInTimezone nowUTC settings).startUTC
        (getTimeWindowInTimezone nowUTC settings).endUTC) settings := by
    rw [applyBufferTimes, List.mem_map]
    exact ⟨b, hfetched, rfl⟩
  have hnone := (List.mem_filter.mp hcoll).2
  simp only [Bool.not_eq_true', List.any_eq_false] at hnone
  have hno := hnone _ hbuf
  rw [isSlotCollidingWithBooking] at hno
  rw [hs1, hs2]
  intro hcon
  simp [hcon.1, hcon.2] at hno

/-! ## Claim theorems on the single pipeline stages -/

/-- C3: filterCollidingSlots keeps a candidate slot iff no buffered booking
in its input satisfies slot.start < buffered.end AND slot.end >
buffered.start; the buffered interval of a booking is
[start - preBookingBuffer, end + postBookingBuffer] on the UTC timeline;
and a slot that merely touches a buffered interval (its end equals the
buffered start, or its start equals the buffered end) is never a
collision. -/
theorem claim_C3_collision_filter :
    (∀ (slots : List CandidateSlot) (bufs : List BufferedBooking) (slot : CandidateSlot),
      slot ∈ filterCollidingSlots slots bufs ↔
        slot ∈ slots ∧ ∀ bb ∈ bufs,
          ¬(slot.startTimeUTC < bb.bufferedEndUTC ∧ slot.endTimeUTC > bb.bufferedStartUTC)) ∧
    (∀ (bookings : List Booking) (settings : OrganizerSettings),
      applyBufferTimes bookings settings = bookings.map fun b =>
        { booking := b
          bufferedStartUTC := b.startTime - settings.preBookingBuffer
          bufferedEndUTC := b.endTime + settings.postBookingBuffer
          originalStartUTC := b.startTime
          originalEndUTC := b.endTime }) ∧
    (∀ (slot : CandidateSlot) (bb : BufferedBooking),
      slot.endTimeUTC = bb.bufferedStartUTC ∨ slot.startTimeUTC = bb.bufferedEndUTC →
        isSlotCollidingWithBooking slot bb = false) := by
  refine ⟨?_, fun _ _ => rfl, ?_⟩
  · intro slots bufs slot
    simp only [filterCollidingSlots, List.mem_filter, Bool.not_eq_true', List.any_eq_false,
      isSlotCollidingWithBooking]
    constructor
    · rintro ⟨hm, hp⟩
      refine ⟨hm, fun bb hbb hcon => ?_⟩
      have := hp bb hbb
      simp [hcon.1, hcon.2] at this
    · rintro ⟨hm, hp⟩
      refine ⟨hm, fun bb hbb => ?_⟩
      have := hp bb hbb
      by_cases h1 : slot.startTimeUTC < bb.bufferedEndUTC
      · by_cases h2 : slot.endTimeUTC > bb.bufferedStartUTC
        · exact absurd ⟨h1, h2⟩ this
        · simp [h2]
      · simp [h1]
  · intro slot bb h
    rcases h with h | h <;> simp [isSlotCollidingWithBooking, h]

/-- C6: applyBusinessRulesToSlots keeps a slot iff its end is strictly
after now and its start is at or after now plus the minimum notice in
hours; in particular a slot starting exactly at the notice boundary is
kept exactly when it also ends after now. -/
theorem claim_C6_business_rules_filter :
    ∀ (nowUTC : Int) (slots : List CandidateSlot) (settings : OrganizerSettings)
      (slot : CandidateSlot),
      slot ∈ applyBusinessRulesToSlots nowUTC slots settings ↔
        slot ∈ slots ∧ nowUTC < slot.endTimeUTC ∧
          nowUTC + 60 * settings.minBookingNotice ≤ slot.startTimeUTC := by
  intro nowUTC slots settings slot
  simp only [applyBusinessRulesToSlots, List.mem_filter]
  constructor
  · rintro ⟨hm, hp⟩
    refine ⟨hm, ?_⟩
    by_cases h1 : slot.endTimeUTC ≤ nowUTC
    · simp [h1] at hp
    · by_cases h2 : slot.startTimeUTC < nowUTC + 60 * settings.minBookingNotice
      · simp [h1, h2] at hp
      · omega
  · rintro ⟨hm, h1, h2⟩
    have hn1 : ¬ slot.endTimeUTC ≤ nowUTC := by omega
    have hn2 : ¬ slot.startTimeUTC < nowUTC + 60 * settings.minBookingNotice := by omega
    simp [hm, hn1, hn2]

/-- C7: filterSlotsByBlackoutDates keeps a slot iff the local calendar day
of its UTC start (converted to the organizer zone, floored with startOf
day) differs from the local calendar day of every blackout timestamp
(likewise converted and floored); the comparison is equality of local day
boundaries, never of raw instants. -/
theorem claim_C7_blackout_filter :
    ∀ (slots : List CandidateSlot) (blackouts : List BlackoutDates) (tz : Zone)
      (slot : CandidateSlot),
      slot ∈ filterSlotsByBlackoutDates slots blackouts tz ↔
        slot ∈ slots ∧ ∀ bd ∈ blackouts,
          startOfDay (tz.ofUTC slot.startTimeUTC) ≠ startOfDay (tz.ofUTC bd.date) := by
  intro slots blackouts tz slot
  simp only [filterSlotsByBlackoutDates, List.mem_filter, Bool.not_eq_true',
    List.any_eq_false, beq_eq_false_iff_ne, ne_eq, beq_iff_eq]

/-- C4: generateCandidateSlotsUTC emits, for every calendar day of the
window and every active block whose stored day code matches that local day
of week (Sunday = 0), exactly the slots blockStart + k * duration of the
default duration while the slot end stays at or before blockEnd, with no
trailing slot; and on the concrete instance with timezone UTC, one Monday
block 09:00-17:00 and duration 60, the Monday 1970-01-05 inside the window
yields exactly 8 slots, the first 09:00-10:00 and the last 16:00-17:00
(here minute 6300 of the epoch is 09:00 and 6780 is 17:00 of that
Monday). -/
theorem claim_C4_candidate_slot_generation :
    (∀ (windowStartInTZ windowEndInTZ : Int) (workingHours : List WorkingHours)
      (settings : OrganizerSettings), 0 < settings.defaultMeetingDuration →
      generateCandidateSlotsUTC windowStartInTZ windowEndInTZ workingHours settings =
        (List.range (numDays windowEndInTZ windowStartInTZ)).flatMap fun i =>
          let day := windowStartInTZ + minutesPerDay * i
          (workingHours.filter fun wh =>
              wh.dayOfWeek == dayOfWeekCode (localDay day) && wh.isActive).flatMap fun wh =>
            let workStart := setTime day wh.startHour wh.startMin
            let workEnd := setTime day wh.endHour wh.endMin
            (List.range (numSlots workEnd workStart settings.defaultMeetingDuration)).map fun k =>
              { startTimeUTC := settings.workingTimezone.toUTC
                  (workStart + (settings.defaultMeetingDuration : Int) * k)
                endTimeUTC := settings.workingTimezone.toUTC
                  (workStart + (settings.defaultMeetingDuration : Int) * (k + 1))
                duration := settings.defaultMeetingDuration }) ∧
    generateCandidateSlotsUTC 5760 7200
      [{ userId := "org", dayOfWeek := 1, startHour := 9, startMin := 0,
         endHour := 17, endMin := 0, isActive := true, deletedAt := none }]
      { workingTimezone := Zone.utc, defaultMeetingDuration := 60,
        preBookingBuffer := 0, postBookingBuffer := 0,
        minBookingNotice := 0, maxBookingAdvance := 1 } =
      [⟨6300, 6360, 60⟩, ⟨6360, 6420, 60⟩, ⟨6420, 6480, 60⟩, ⟨6480, 6540, 60⟩,
       ⟨6540, 6600, 60⟩, ⟨6600, 6660, 60⟩, ⟨6660, 6720, 60⟩, ⟨6720, 6780, 60⟩] := by
  constructor
  · intro ws we whs settings hdur
    exact generateCandidateSlotsUTC_eq ws we whs settings hdur
  · rw [generateCandidateSlotsUTC_eq _ _ _ _ (by norm_num)]
    decide

/-! ## The scheduling window -/

/-- startOf day is idempotent. -/
theorem startOfDay_idem (t : Int) : startOfDay (startOfDay t) = startOfDay t := by
  simp only [startOfDay, minutesPerDay]
  omega

/-- startOf day commutes with adding whole days. -/
theorem startOfDay_add_mul (t k : Int) :
    startOfDay (t + minutesPerDay * k) = startOfDay t + minutesPerDay * k := by
  simp only [startOfDay, minutesPerDay]
  omega

/-- A window of exactly m whole days is walked in exactly m day steps. -/
theorem numDays_exact (wStart : Int) (m : Nat) :
    numDays (wStart + minutesPerDay * m) wStart = m := by
  simp only [numDays, minutesPerDay]
  omega

/-- The window bounds: local start is the start of the current local day,
local end is exactly maxBookingAdvance whole days later, and both are day
boundaries. Holds for every zone, i.e. regardless of DST transitions. -/
theorem getTimeWindowInTimezone_spec (nowUTC : Int) (settings : OrganizerSettings) :
    (getTimeWindowInTimezone nowUTC settings).startInTZ =
      startOfDay (settings.workingTimezone.ofUTC nowUTC) ∧
    (getTimeWindowInTimezone nowUTC settings).endInTZ =
      (getTimeWindowInTimezone nowUTC settings).startInTZ +
        minutesPerDay * settings.maxBookingAdvance ∧
    startOfDay (getTimeWindowInTimezone nowUTC settings).startInTZ =
      (getTimeWindowInTimezone nowUTC settings).startInTZ ∧
    startOfDay (getTimeWindowInTimezone nowUTC settings).endInTZ =
      (getTimeWindowInTimezone nowUTC settings).endInTZ := by
  refine ⟨rfl, ?_, ?_, ?_⟩
  · simp only [getTimeWindowInTimezone]
    rw [startOfDay_add_mul, startOfDay_idem]
  · simp only [getTimeWindowInTimezone]
    rw [startOfDay_idem]
  · simp only [getTimeWindowInTimezone]
    rw [startOfDay_add_mul, startOfDay_idem, startOfDay_add_mul, startOfDay_idem]

/-- Every generated candidate slot of a day-aligned window of m whole days
starts at the image of a local instant L with the whole slot inside the
window, provided the stored block times are well formed ("HH:mm"). -/
theorem mem_generateCandidateSlotsUTC_window (wStart : Int) (m : Nat)
    (whs : List WorkingHours) (settings : OrganizerSettings)
    (hal : startOfDay wStart = wStart)
    (hwf : ∀ wh ∈ whs, 0 ≤ wh.startHour ∧ 0 ≤ wh.startMin ∧ wh.endHour ≤ 23 ∧ wh.endMin ≤ 59)
    (hdur : 0 < settings.defaultMeetingDuration)
    (s : CandidateSlot)
    (hs : s ∈ generateCandidateSlotsUTC wStart (wStart + minutesPerDay * m) whs settings) :
    ∃ L : Int, wStart ≤ L ∧
      L + (settings.defaultMeetingDuration : Int) ≤ wStart + minutesPerDay * m ∧
      s.startTimeUTC = settings.workingTimezone.toUTC L ∧
      s.endTimeUTC = settings.workingTimezone.toUTC (L + settings.defaultMeetingDuration) ∧
      s.duration = settings.defaultMeetingDuration := by
  rw [generateCandidateSlotsUTC_eq _ _ _ _ hdur, numDays_exact] at hs
  simp only [List.mem_flatMap, List.mem_range, List.mem_filter, List.mem_map] at hs
  obtain ⟨i, hi, wh, ⟨hwh, hmatch⟩, k, hk, heq⟩ := hs
  obtain ⟨hsh, hsm, heh, hem⟩ := hwf wh hwh
  set day : Int := wStart + minutesPerDay * i with hday
  have halday : startOfDay day = day := by
    rw [hday, startOfDay_add_mul, hal]
  set dur : Int := (settings.defaultMeetingDuration : Int) with hdurdef
  have hdurpos : 0 < dur := by rw [hdurdef]; exact_mod_cast hdur
  set workStart : Int := setTime day wh.startHour wh.startMin with hwsdef
  set workEnd : Int := setTime day wh.endHour wh.endMin with hwedef
  have hws : workStart = day + 60 * wh.startHour + wh.startMin := by
    rw [hwsdef, setTime, halday]
  have hwe : workEnd = day + 60 * wh.endHour + wh.endMin := by
    rw [hwedef, setTime, halday]
  obtain ⟨h1, h2, h3⟩ : s.startTimeUTC = settings.workingTimezone.toUTC (workStart + dur * k) ∧
      s.endTimeUTC = settings.workingTimezone.toUTC (workStart + dur * ((k : Int) + 1)) ∧
      s.duration = settings.defaultMeetingDuration := by
    rw [← heq]
    exact ⟨rfl, rfl, rfl⟩
  have hkq : ((k : Int) + 1) ≤ (workEnd - workStart) / dur := by
    simp only [numSlots] at hk
    rw [← hdurdef] at hk
    obtain ⟨q, hq⟩ : ∃ q : Int, q = (workEnd - workStart) / dur := ⟨_, rfl⟩
    rw [← hq] at hk ⊢
    omega
  have hmul : ((k : Int) + 1) * dur ≤ workEnd - workStart :=
    (Int.le_ediv_iff_mul_le hdurpos).mp hkq
  have hfits : workStart + dur * k + dur ≤ workEnd := by nlinarith [hmul]
  have hknn : (0 : Int) ≤ dur * k := by positivity
  have hdaylo : wStart ≤ day := by
    rw [hday]
    simp only [minutesPerDay]
    omega
  have hdayhi : day + 1440 ≤ wStart + minutesPerDay * m := by
    rw [hday]
    simp only [minutesPerDay]
    omega
  refine ⟨workStart + dur * k, ?_, ?_, h1, ?_, h3⟩
  · have hwslo : day ≤ workStart := by rw [hws]; omega
    linarith
  · have hwehi : workEnd ≤ day + 1439 := by rw [hwe]; omega
    linarith
  · rw [h2]
    congr 1
    ring

/-- C5: the scheduling window starts at the start of the current local day
and its exclusive local end is exactly maxBookingAdvance whole calendar
days later, also at a day boundary; the timezone conversions are arbitrary
functions, so this holds regardless of DST transitions inside the window.
Moreover every slot the pipeline returns starts at the UTC image of a
local instant inside [windowStart, windowEnd); whenever the zone
conversions round-trip on the window (as the zone-aware library does for
wall times it produced), the local reading of the slot start itself lies
inside the window. Working-hours rows are assumed well formed ("HH:mm")
and the meeting duration positive, as the settings validation enforces. -/
theorem claim_C5_window_spans_max_advance (nowUTC : Int) (settings : OrganizerSettings)
    (wht : List WorkingHours) (bot : List BlackoutDates) (bkt : List Booking)
    (organizerId : String) (slots : List AvailableSlot) (settingsOut : OrganizerSettings)
    (hwf : ∀ wh ∈ wht, 0 ≤ wh.startHour ∧ 0 ≤ wh.startMin ∧ wh.endHour ≤ 23 ∧ wh.endMin ≤ 59)
    (hdur : 0 < settings.defaultMeetingDuration)
    (hres : calculateAvailableSlots (some settings) wht bot bkt organizerId nowUTC
      = some (slots, settingsOut)) :
    ((getTimeWindowInTimezone nowUTC settings).startInTZ =
        startOfDay (settings.workingTimezone.ofUTC nowUTC) ∧
      (getTimeWindowInTimezone nowUTC settings).endInTZ =
        (getTimeWindowInTimezone nowUTC settings).startInTZ +
          minutesPerDay * settings.maxBookingAdvance ∧
      startOfDay (getTimeWindowInTimezone nowUTC settings).endInTZ =
        (getTimeWindowInTimezone nowUTC settings).endInTZ) ∧
    ∀ sl ∈ slots, ∃ L : Int,
      (getTimeWindowInTimezone nowUTC settings).startInTZ ≤ L ∧
      L < (getTimeWindowInTimezone nowUTC settings).endInTZ ∧
      sl.startTime = settings.workingTimezone.toUTC L ∧
      ((∀ l : Int, (getTimeWindowInTimezone nowUTC settings).startInTZ ≤ l →
          l < (getTimeWindowInTimezone nowUTC settings).endInTZ →
          settings.workingTimezone.ofUTC (settings.workingTimezone.toUTC l) = l) →
        (getTimeWindowInTimezone nowUTC settings).startInTZ ≤
            settings.workingTimezone.ofUTC sl.startTime ∧
          settings.workingTimezone.ofUTC sl.startTime <
            (getTimeWindowInTimezone nowUTC settings).endInTZ) := by
  obtain ⟨hw1, hw2, hw3, hw4⟩ := getTimeWindowInTimezone_spec nowUTC settings
  refine ⟨⟨hw1, hw2, hw4⟩, ?_⟩
  intro sl hsl
  obtain ⟨cs, hcs, hs1, hs2, hs3⟩ :=
    mem_calculateAvailableSlots settings wht bot bkt organizerId nowUTC
      slots settingsOut hres sl hsl
  have hgen : cs ∈ generateCandidateSlotsUTC (getTimeWindowInTimezone nowUTC settings).startInTZ
      (getTimeWindowInTimezone nowUTC settings).endInTZ
      (getWorkingHoursByUserId wht organizerId) settings := by
    have hc1 := (List.mem_filter.mp hcs).1
    have hc2 := (List.mem_filter.mp hc1).1
    exact (List.mem_filter.mp hc2).1
  rw [hw2] at hgen
  obtain ⟨L, hL1, hL2, hL3, hL4, hL5⟩ :=
    mem_generateCandidateSlotsUTC_window (getTimeWindowInTimezone nowUTC settings).startInTZ
      settings.maxBookingAdvance (getWorkingHoursByUserId wht organizerId) settings hw3
      (fun wh hwh => hwf wh (List.mem_filter.mp hwh).1) hdur cs hgen
  have hdp : (0 : Int) < (settings.defaultMeetingDuration : Int) := by exact_mod_cast hdur
  refine ⟨L, hL1, ?_, by rw [hs1]; exact hL3, ?_⟩
  · rw [hw2]
    omega
  · intro hrt
    have hLlt : L < (getTimeWindowInTimezone nowUTC settings).endInTZ := by
      rw [hw2]
      omega
    have := hrt L hL1 hLlt
    rw [hs1, hL3, this]
    exact ⟨hL1, hLlt⟩

/-! ## Concrete scenarios (UTC zone; epoch day 4, minute 5760, is Monday
1970-01-05 00:00) -/

/-- Settings: UTC zone, 60-minute meetings, no buffers, no notice, one day
of advance. -/
def cx2Settings : OrganizerSettings :=
  { workingTimezone := Zone.utc, defaultMeetingDuration := 60,
    preBookingBuffer := 0, postBookingBuffer := 0,
    minBookingNotice := 0, maxBookingAdvance := 1 }

/-- One active Monday block 00:00-02:00. -/
def cx2WorkingHours : List WorkingHours :=
  [{ userId := "org", dayOfWeek := 1, startHour := 0, startMin := 0,
     endHour := 2, endMin := 0, isActive := true, deletedAt := none }]

/-- A booking from Sunday 23:00 to Monday 01:30: it starts before the
window start (minute 5760) and extends one and a half hours into it. -/
def cx2Booking : Booking :=
  { organizerId := "org", attendantEmail := "attendant@example.com",
    startTime := 5700, endTime := 5850, deletedAt := none }

/-- A booking Monday 02:00-03:00, inside the query window. -/
def cx2InWindowBooking : Booking :=
  { organizerId := "org", attendantEmail := "attendant@example.com",
    startTime := 5880, endTime := 5940, deletedAt := none }

/-- Pipeline run against the overhanging booking: it is not fetched (its
start time precedes the window start), so both Monday slots survive. -/
theorem cx2_eval : calculateAvailableSlots (some cx2Settings) cx2WorkingHours []
    [cx2Booking] "org" 5760 =
    some ([⟨5760, 5820, 60, true⟩, ⟨5820, 5880, 60, true⟩], cx2Settings) := by
  have hg : generateCandidateSlotsUTC (getTimeWindowInTimezone 5760 cx2Settings).startInTZ
      (getTimeWindowInTimezone 5760 cx2Settings).endInTZ
      (getWorkingHoursByUserId cx2WorkingHours "org") cx2Settings =
      [⟨5760, 5820, 60⟩, ⟨5820, 5880, 60⟩] := by
    rw [generateCandidateSlotsUTC_eq _ _ _ _ (by norm_num [cx2Settings])]
    decide
  simp only [calculateAvailableSlots, hg]
  rfl

/-- Pipeline run against the in-window booking: it is fetched, the 01:00
slot is adjacent (allowed) and both slots survive. -/
theorem cx2_eval_in_window : calculateAvailableSlots (some cx2Settings) cx2WorkingHours []
    [cx2InWindowBooking] "org" 5760 =
    some ([⟨5760, 5820, 60, true⟩, ⟨5820, 5880, 60, true⟩], cx2Settings) := by
  have hg : generateCandidateSlotsUTC (getTimeWindowInTimezone 5760 cx2Settings).startInTZ
      (getTimeWindowInTimezone 5760 cx2Settings).endInTZ
      (getWorkingHoursByUserId cx2WorkingHours "org") cx2Settings =
      [⟨5760, 5820, 60⟩, ⟨5820, 5880, 60⟩] := by
    rw [generateCandidateSlotsUTC_eq _ _ _ _ (by norm_num [cx2Settings])]
    decide
  simp only [calculateAvailableSlots, hg]
  rfl

/-- C2 counterexample: at the concrete input above, the pipeline returns
the Monday 00:00-01:00 slot although the organizer has an active
(non-deleted) booking whose buffered interval [5700, 5850] overlaps it;
the booking merely starts before the queried window. So the no-overlap
guarantee does not hold over ALL active bookings of the organizer. -/
theorem claim_C2_counterexample :
    ∃ slots settingsOut,
      calculateAvailableSlots (some cx2Settings) cx2WorkingHours [] [cx2Booking] "org" 5760 =
        some (slots, settingsOut) ∧
      ∃ sl ∈ slots, ∃ b ∈ [cx2Booking], b.organizerId = "org" ∧ b.deletedAt = none ∧
        sl.startTime < b.endTime + cx2Settings.postBookingBuffer ∧
        sl.endTime > b.startTime - cx2Settings.preBookingBuffer := by
  refine ⟨_, _, cx2_eval, ⟨5760, 5820, 60, true⟩, ?_, cx2Booking, ?_, rfl, rfl, ?_, ?_⟩
  · exact List.mem_cons_self _ _
  · exact List.mem_cons_self _ _
  · decide
  · decide

/-- C2 (amended): for every slot the pipeline returns and every active
booking of the organizer WHOSE START TIME LIES IN THE QUERIED WINDOW
(from the window start to the end of the window end day, the exact range
of the fetch), the slot does not overlap the buffered interval
[start - preBookingBuffer, end + postBookingBuffer]. -/
theorem claim_C2_no_overlap_with_fetched_bookings
    (settings : OrganizerSettings) (wht : List WorkingHours) (bot : List BlackoutDates)
    (bkt : List Booking) (organizerId : String) (nowUTC : Int)
    (slots : List AvailableSlot) (settingsOut : OrganizerSettings)
    (hres : calculateAvailableSlots (some settings) wht bot bkt organizerId nowUTC
      = some (slots, settingsOut))
    (b : Booking) (hb : b ∈ bkt) (horg : b.organizerId = organizerId)
    (hdel : b.deletedAt = none)
    (hlo : (getTimeWindowInTimezone nowUTC settings).startUTC ≤ b.startTime)
    (hhi : b.startTime ≤
      startOfDay (getTimeWindowInTimezone nowUTC settings).endUTC + (minutesPerDay - 1))
    (sl : AvailableSlot) (hsl : sl ∈ slots) :
    sl.startTime ≥ b.endTime + settings.postBookingBuffer ∨
      sl.endTime ≤ b.startTime - settings.preBookingBuffer := by
  have h := calculateAvailableSlots_no_overlap settings wht bot bkt organizerId nowUTC
    slots settingsOut hres b hb horg hdel hlo hhi sl hsl
  by_cases h1 : sl.startTime < b.endTime + settings.postBookingBuffer
  · by_cases h2 : sl.endTime > b.startTime - settings.preBookingBuffer
    · exact absurd ⟨h1, h2⟩ h
    · right; omega
  · left; omega

/-- C2 witness: the amended theorem applied to the in-window booking
scenario; the 00:00-01:00 slot sits entirely before the buffered interval
[5880, 5940]. -/
theorem claim_C2_witness :
    (⟨5760, 5820, 60, true⟩ : AvailableSlot).startTime ≥
        cx2InWindowBooking.endTime + cx2Settings.postBookingBuffer ∨
      (⟨5760, 5820, 60, true⟩ : AvailableSlot).endTime ≤
        cx2InWindowBooking.startTime - cx2Settings.preBookingBuffer :=
  claim_C2_no_overlap_with_fetched_bookings cx2Settings cx2WorkingHours [] [cx2InWindowBooking]
    "org" 5760 _ _ cx2_eval_in_window cx2InWindowBooking (List.mem_cons_self _ _) rfl rfl
    (by decide) (by decide) _ (List.mem_cons_self _ _)

/-! ## Booking commit, reschedule and cancel handlers -/

/-- The Redis lock key of a slot, built from the organizer id and the slot
start timestamp. -/
def lockKeyFor (organizerId : String) (slotStart : Int) : String :=
  "lock:booking:" ++ organizerId ++ ":" ++ toString slotStart

/-- The outcomes of the createBooking handler. `bodyThrew` stands for an
exception propagating out of the guarded section (the availability
recomputation throwing, or the insert itself throwing). -/
inductive CreateResult where
  | timeRangeError
  | organizerNotFound
  | settingsNotFound
  | lockConflict
  | slotConflict
  | persistFailed
  | success (b : Booking)
  | bodyThrew
deriving DecidableEq, Repr

/-- The createBooking handler. Database reads are passed as their results
or tables; `persistOutcome` is the behaviour of the insert: `.error` a
thrown exception, `.ok none` a null row, `.ok (some b)` the created row.
The shared lock store is the list of currently held keys; acquisition is
the atomic set-if-absent, and the try/finally of the source deletes the
key on every exit of the guarded section. -/
def createBookingFn (nowUTC : Int) (organizerRead : Option String)
    (settingsRead : Option OrganizerSettings) (wht : List WorkingHours)
    (bot : List BlackoutDates) (bkt : List Booking) (startTime endTime : Int)
    (persistOutcome : Except Unit (Option Booking)) (locks : List String) :
    CreateResult × List String :=
  if endTime ≤ startTime then (.timeRangeError, locks)
  else match organizerRead with
  | none => (.organizerNotFound, locks)
  | some organizerId =>
    match settingsRead with
    | none => (.settingsNotFound, locks)
    | some settings =>
      let lockKey := lockKeyFor organizerId startTime
      if lockKey ∈ locks then (.lockConflict, locks)
      else
        let locks1 := lockKey :: locks
        let body : CreateResult :=
          match calculateAvailableSlots (some settings) wht bot bkt organizerId nowUTC with
          | none => .bodyThrew
          | some (slots, _) =>
            if slots.any fun sl =>
                sl.startTime == startTime && sl.endTime == endTime then
              match persistOutcome with
              | .error _ => .bodyThrew
              | .ok none => .persistFailed
              | .ok (some b) => .success b
            else .slotConflict
        (body, locks1.erase lockKey)

/-- The outcomes of the rescheduleBooking handler (it throws on every
failure path). -/
inductive RescheduleResult where
  | notFoundThrown
  | pastBookingThrown
  | timeRangeThrown
  | pastTimeThrown
  | settingsNotFoundThrown
  | lockConflictThrown
  | slotConflictThrown
  | updateFailedThrown
  | success (b : Booking)
  | bodyThrew
deriving DecidableEq, Repr

/-- The rescheduleBooking handler: identical protocol, but the lock is
taken on the NEW target slot and the revalidation runs against the booking
table that still contains the row being rescheduled. -/
def rescheduleBookingFn (nowUTC : Int) (bookingRead : Option Booking)
    (settingsRead : Option OrganizerSettings) (wht : List WorkingHours)
    (bot : List BlackoutDates) (bkt : List Booking) (newStartTime newEndTime : Int)
    (updateOutcome : Except Unit (Option Booking)) (locks : List String) :
    RescheduleResult × List String :=
  match bookingRead with
  | none => (.notFoundThrown, locks)
  | some existingBooking =>
    if existingBooking.startTime < nowUTC then (.pastBookingThrown, locks)
    else if newEndTime ≤ newStartTime then (.timeRangeThrown, locks)
    else if newStartTime < nowUTC then (.pastTimeThrown, locks)
    else match settingsRead with
    | none => (.settingsNotFoundThrown, locks)
    | some settings =>
      let lockKey := lockKeyFor existingBooking.organizerId newStartTime
      if lockKey ∈ locks then (.lockConflictThrown, locks)
      else
        let locks1 := lockKey :: locks
        let body : RescheduleResult :=
          match calculateAvailableSlots (some settings) wht bot bkt
              existingBooking.organizerId nowUTC with
          | none => .bodyThrew
          | some (slots, _) =>
            if slots.any fun sl =>
                sl.startTime == newStartTime && sl.endTime == newEndTime then
              match updateOutcome with
              | .error _ => .bodyThrew
              | .ok none => .updateFailedThrown
              | .ok (some b) => .success b
            else .slotConflictThrown
        (body, locks1.erase lockKey)

/-- The requesting user row (the fields the cancel handler reads). -/
structure User where
  id : String
  email : String
deriving DecidableEq, Repr

/-- The outcomes of the cancelBooking handler. -/
inductive CancelResult where
  | notFoundThrown
  | requestingUserNotFound
  | permissionError
  | deleteFailed
  | success
deriving DecidableEq, Repr

/-- The cancelBooking handler: permission is checked only when a
requesting username is supplied; the requester must be the organizer (by
id) or the attendant (by email). The second component records whether the
booking row was soft deleted. -/
def cancelBookingFn (bookingRead : Option Booking) (requestingUsername : Option String)
    (userLookup : List User) (deleteOk : Bool) : CancelResult × Bool :=
  match bookingRead with
  | none => (.notFoundThrown, false)
  | some booking =>
    match requestingUsername with
    | some _ =>
      match userLookup with
      | [] => (.requestingUserNotFound, false)
      | u :: _ =>
        let isOrganizer := u.id == booking.organizerId
        let isAttendant := u.email == booking.attendantEmail
        if !isOrganizer && !isAttendant then (.permissionError, false)
        else if deleteOk then (.success, true) else (.deleteFailed, false)
    | none => if deleteOk then (.success, true) else (.deleteFailed, false)

/-- On every exit path of the createBooking handler the lock store is left
as it was found: paths that never acquire do not touch it, and the
finally-release of the guarded section deletes the freshly inserted key. -/
theorem createBookingFn_snd (nowUTC : Int) (organizerRead : Option String)
    (settingsRead : Option OrganizerSettings) (wht : List WorkingHours)
    (bot : List BlackoutDates) (bkt : List Booking) (startTime endTime : Int)
    (persistOutcome : Except Unit (Option Booking)) (locks : List String) :
    (createBookingFn nowUTC organizerRead settingsRead wht bot bkt startTime endTime
      persistOutcome locks).2 = locks := by
  rcases organizerRead with _ | organizerId
  · rw [createBookingFn.eq_def]
    split <;> rfl
  · rcases settingsRead with _ | settings
    · rw [createBookingFn.eq_def]
      split <;> rfl
    · by_cases hval : endTime ≤ startTime
      · simp [createBookingFn, hval]
      · by_cases hmem : lockKeyFor organizerId startTime ∈ locks
        · simp [createBookingFn, hval, hmem]
        · simp [createBookingFn, hval, hmem, List.erase_cons_head]

/-- On every exit path of the rescheduleBooking handler the lock store is
left as it was found. -/
theorem rescheduleBookingFn_snd (nowUTC : Int) (bookingRead : Option Booking)
    (settingsRead : Option OrganizerSettings) (wht : List WorkingHours)
    (bot : List BlackoutDates) (bkt : List Booking) (newStartTime newEndTime : Int)
    (updateOutcome : Except Unit (Option Booking)) (locks : List String) :
    (rescheduleBookingFn nowUTC bookingRead settingsRead wht bot bkt newStartTime
      newEndTime updateOutcome locks).2 = locks := by
  rcases bookingRead with _ | existingBooking
  · rfl
  · by_cases h1 : existingBooking.startTime < nowUTC
    · simp [rescheduleBookingFn, h1]
    · by_cases h2 : newEndTime ≤ newStartTime
      · simp [rescheduleBookingFn, h1, h2]
      · by_cases h3 : newStartTime < nowUTC
        · simp [rescheduleBookingFn, h1, h2, h3]
        · rcases settingsRead with _ | settings
          · simp [rescheduleBookingFn, h1, h2, h3]
          · by_cases hmem : lockKeyFor existingBooking.organizerId newStartTime ∈ locks
            · simp [rescheduleBookingFn, h1, h2, h3, hmem]
            · simp [rescheduleBookingFn, h1, h2, h3, hmem, List.erase_cons_head]

/-- C8: in both the createBooking and the rescheduleBooking handler, once
the set-if-absent acquisition succeeds the lock key is absent from the
lock store on every exit path of the guarded section: successful persist,
revalidation conflict, persistence failure and thrown exceptions alike
(and a path that never acquires leaves the store unchanged). -/
theorem claim_C8_lock_released_on_every_path :
    (∀ (nowUTC : Int) (organizerRead : Option String)
       (settingsRead : Option OrganizerSettings) (wht : List WorkingHours)
       (bot : List BlackoutDates) (bkt : List Booking) (startTime endTime : Int)
       (persistOutcome : Except Unit (Option Booking)) (locks : List String)
       (organizerId : String),
       organizerRead = some organizerId →
       lockKeyFor organizerId startTime ∉ locks →
       lockKeyFor organizerId startTime ∉
         (createBookingFn nowUTC organizerRead settingsRead wht bot bkt startTime endTime
           persistOutcome locks).2) ∧
    (∀ (nowUTC : Int) (bookingRead : Option Booking)
       (settingsRead : Option OrganizerSettings) (wht : List WorkingHours)
       (bot : List BlackoutDates) (bkt : List Booking) (newStartTime newEndTime : Int)
       (updateOutcome : Except Unit (Option Booking)) (locks : List String)
       (existingBooking : Booking),
       bookingRead = some existingBooking →
       lockKeyFor existingBooking.organizerId newStartTime ∉ locks →
       lockKeyFor existingBooking.organizerId newStartTime ∉
         (rescheduleBookingFn nowUTC bookingRead settingsRead wht bot bkt newStartTime
           newEndTime updateOutcome locks).2) := by
  constructor
  · intro nowUTC organizerRead settingsRead wht bot bkt startTime endTime persistOutcome
      locks organizerId heq hkey
    rw [createBookingFn_snd]
    exact hkey
  · intro nowUTC bookingRead settingsRead wht bot bkt newStartTime newEndTime updateOutcome
      locks existingBooking heq hkey
    rw [rescheduleBookingFn_snd]
    exact hkey

/-- C8 witness: the theorem at a concrete input where acquisition succeeds
against an empty lock store. -/
theorem claim_C8_witness :
    lockKeyFor "org" 5760 ∉
      (createBookingFn 5700 (some "org") (some cx2Settings) cx2WorkingHours [] []
        5760 5820 (Except.ok none) []).2 :=
  claim_C8_lock_released_on_every_path.1 5700 (some "org") (some cx2Settings)
    cx2WorkingHours [] [] 5760 5820 (Except.ok none) [] "org" rfl (List.not_mem_nil _)

/-- C9: a cancellation request by an identified user who is neither the
organizer (by id) nor the attendant (by email) ends in the permission
error and performs no soft delete; conversely a successful cancellation
with an identified requesting user implies the requester is the organizer
or the attendant. -/
theorem claim_C9_cancel_requires_permission (booking : Booking) (u : User)
    (rest : List User) (uname : String) (deleteOk : Bool)
    (horg : u.id ≠ booking.organizerId) (hatt : u.email ≠ booking.attendantEmail) :
    cancelBookingFn (some booking) (some uname) (u :: rest) deleteOk =
      (.permissionError, false) ∧
    ∀ (bookingRead : Option Booking) (uname2 : String) (users : List User) (dok : Bool),
      (cancelBookingFn bookingRead (some uname2) users dok).1 = .success →
      ∃ b u2 rest2, bookingRead = some b ∧ users = u2 :: rest2 ∧
        (u2.id = b.organizerId ∨ u2.email = b.attendantEmail) := by
  constructor
  · simp [cancelBookingFn, horg, hatt]
  · intro bookingRead uname2 users dok hsucc
    rcases bookingRead with _ | b
    · simp [cancelBookingFn] at hsucc
    · rcases users with _ | ⟨u2, rest2⟩
      · simp [cancelBookingFn] at hsucc
      · refine ⟨b, u2, rest2, rfl, rfl, ?_⟩
        by_cases hcond : (!(u2.id == b.organizerId) && !(u2.email == b.attendantEmail)) = true
        · rw [cancelBookingFn] at hsucc
          simp only [hcond, if_true] at hsucc
          exact absurd hsucc (by simp)
        · simp only [Bool.and_eq_true, Bool.not_eq_true', beq_eq_false_iff_ne, ne_eq,
            not_and_or, not_not] at hcond
          rcases hcond with h | h
          · left; simpa using h
          · right; simpa using h

/-- C9 witness: the theorem at a concrete input. -/
theorem claim_C9_witness :
    cancelBookingFn (some cx2Booking) (some "mallory")
        [{ id := "mallory-id", email := "mallory@example.com" }] true =
      (.permissionError, false) :=
  (claim_C9_cancel_requires_permission cx2Booking
    { id := "mallory-id", email := "mallory@example.com" } [] "mallory" true
    (by decide) (by decide)).1

/-- With a present settings read, the availability pipeline always
produces a result (it can only throw when settings are missing). -/
theorem calculateAvailableSlots_isSome (settings : OrganizerSettings)
    (wht : List WorkingHours) (bot : List BlackoutDates) (bkt : List Booking)
    (organizerId : String) (nowUTC : Int) :
    ∃ slots, calculateAvailableSlots (some settings) wht bot bkt organizerId nowUTC =
      some (slots, settings) :=
  ⟨_, rfl⟩

/-- C10: the reschedule revalidation recomputes availability over a
booking table that still contains the booking being rescheduled; hence
when the new target range overlaps the buffered interval of that very
booking (fetched by the range query), the fresh slot list has no exact
match and the attempt ends in the revalidation conflict, regardless of
any other booking. -/
theorem claim_C10_reschedule_conflicts_with_own_slot (nowUTC : Int)
    (existingBooking : Booking) (settings : OrganizerSettings)
    (wht : List WorkingHours) (bot : List BlackoutDates) (bkt : List Booking)
    (newStartTime newEndTime : Int) (updateOutcome : Except Unit (Option Booking))
    (locks : List String)
    (hnotpast : ¬ existingBooking.startTime < nowUTC)
    (hrange : ¬ newEndTime ≤ newStartTime)
    (hfuture : ¬ newStartTime < nowUTC)
    (hlock : lockKeyFor existingBooking.organizerId newStartTime ∉ locks)
    (hmem : existingBooking ∈ bkt) (hdel : existingBooking.deletedAt = none)
    (hlo : (getTimeWindowInTimezone nowUTC settings).startUTC ≤ existingBooking.startTime)
    (hhi : existingBooking.startTime ≤
      startOfDay (getTimeWindowInTimezone nowUTC settings).endUTC + (minutesPerDay - 1))
    (hoverlap : newStartTime < existingBooking.endTime + settings.postBookingBuffer ∧
      newEndTime > existingBooking.startTime - settings.preBookingBuffer) :
    (rescheduleBookingFn nowUTC (some existingBooking) (some settings) wht bot bkt
      newStartTime newEndTime updateOutcome locks).1 = .slotConflictThrown := by
  obtain ⟨slots, hres⟩ := calculateAvailableSlots_isSome settings wht bot bkt
    existingBooking.organizerId nowUTC
  have hany : (slots.any fun sl =>
      sl.startTime == newStartTime && sl.endTime == newEndTime) = false := by
    rw [List.any_eq_false]
    rintro sl hsl hmatch
    simp only [Bool.and_eq_true, beq_iff_eq] at hmatch
    have hno := calculateAvailableSlots_no_overlap settings wht bot bkt
      existingBooking.organizerId nowUTC slots settings hres existingBooking hmem rfl hdel
      hlo hhi sl hsl
    exact hno ⟨by rw [hmatch.1]; exact hoverlap.1, by rw [hmatch.2]; exact hoverlap.2⟩
  simp only [rescheduleBookingFn, if_neg hnotpast, if_neg hrange, if_neg hfuture,
    if_neg hlock, hres, hany, if_false, Bool.false_eq_true]

/-- C10 witness: rescheduling the Monday 02:00-03:00 booking onto its own
current slot conflicts even though no other booking occupies it. -/
theorem claim_C10_witness :
    (rescheduleBookingFn 5760 (some cx2InWindowBooking) (some cx2Settings) cx2WorkingHours
      [] [cx2InWindowBooking] 5880 5940 (Except.ok none) []).1 =
      RescheduleResult.slotConflictThrown :=
  claim_C10_reschedule_conflicts_with_own_slot 5760 cx2InWindowBooking cx2Settings
    cx2WorkingHours [] [cx2InWindowBooking] 5880 5940 (Except.ok none) []
    (by decide) (by decide) (by decide) (List.not_mem_nil _)
    (List.mem_cons_self _ _) rfl (by decide) (by decide) ⟨by decide, by decide⟩

/-! ## C1: two concurrent commit attempts for the same slot

The commit protocol of the createBooking handler, viewed as a transition
system: each attempt owns a program counter and the two attempts share the
lock bit of their common key (both target the same organizer and start
time, so they contend on one key) and the bookings table. Each step is one
atomic shared-memory operation of the source: the Redis SET NX, the
revalidation (reading the table through the real pipeline), the insert,
and the DEL of the finally block. The lock TTL is not modelled: the claim
is about attempts completing within the TTL window, during which the key
does not expire. -/

/-- The inputs both commit attempts share (same organizer, same slot). -/
structure CommitCtx where
  organizerId : String
  settings : OrganizerSettings
  workingHours : List WorkingHours
  blackoutDates : List BlackoutDates
  nowUTC : Int
  startTime : Int
  endTime : Int
  attendantEmail : String

/-- The row the insert writes. -/
def mkBooking (ctx : CommitCtx) : Booking :=
  { organizerId := ctx.organizerId, attendantEmail := ctx.attendantEmail,
    startTime := ctx.startTime, endTime := ctx.endTime, deletedAt := none }

/-- The revalidation of step 3: recompute availability from live data and
look for an exact match of the requested range. -/
def revalidateOk (ctx : CommitCtx) (db : List Booking) : Bool :=
  match calculateAvailableSlots (some ctx.settings) ctx.workingHours ctx.blackoutDates db
      ctx.organizerId ctx.nowUTC with
  | none => false
  | some (slots, _) => slots.any fun slot =>
      slot.startTime == ctx.startTime && slot.endTime == ctx.endTime

/-- Terminal outcomes of one commit attempt (persistence is assumed not to
fail here; failure paths are covered by the handler embedding). -/
inductive Outcome where
  | success
  | lockConflict
  | slotConflict
deriving DecidableEq, Repr

/-- The program counter of one commit attempt. -/
inductive APC where
  | acquire
  | revalidate
  | persist
  | release (o : Outcome)
  | done (o : Outcome)
deriving DecidableEq, Repr

/-- The shared state plus both program counters. -/
structure Config where
  lock : Bool
  db : List Booking
  a : APC
  b : APC
deriving DecidableEq, Repr

/-- One atomic step of one attempt against the shared state: SET NX (fail
fast to the lock conflict), revalidate (to persist or to the conflict
release), insert, DEL. A finished attempt does not move. -/
def attemptStep (ctx : CommitCtx) (pc : APC) (lock : Bool) (db : List Booking) :
    APC × Bool × List Booking :=
  match pc with
  | .acquire =>
      if lock then (.done .lockConflict, lock, db) else (.revalidate, true, db)
  | .revalidate =>
      if revalidateOk ctx db then (.persist, lock, db)
      else (.release .slotConflict, lock, db)
  | .persist => (.release .success, lock, db ++ [mkBooking ctx])
  | .release o => (.done o, false, db)
  | .done o => (.done o, lock, db)

/-- Attempt A takes a step. -/
def stepA (ctx : CommitCtx) (c : Config) : Config :=
  let r := attemptStep ctx c.a c.lock c.db
  { lock := r.2.1, db := r.2.2, a := r.1, b := c.b }

/-- Attempt B takes a step. -/
def stepB (ctx : CommitCtx) (c : Config) : Config :=
  let r := attemptStep ctx c.b c.lock c.db
  { lock := r.2.1, db := r.2.2, a := c.a, b := r.1 }

/-- Run an arbitrary interleaving: `true` schedules A, `false` schedules
B. -/
def run (ctx : CommitCtx) (sched : List Bool) (c : Config) : Config :=
  sched.foldl (fun c side => if side then stepA ctx c else stepB ctx c) c

/-- Both attempts start before acquisition, the lock is free and the table
holds the initial bookings. -/
def initConfig (db0 : List Booking) : Config :=
  { lock := false, db := db0, a := .acquire, b := .acquire }

/-- The attempt is inside the guarded section (it owns the lock). -/
def holdsLock : APC → Bool
  | .revalidate => true
  | .persist => true
  | .release _ => true
  | _ => false

/-- The attempt has persisted its booking. -/
def persisted : APC → Bool
  | .release .success => true
  | .done .success => true
  | _ => false

/-- The attempt failed its revalidation. -/
def revalidateFailed : APC → Bool
  | .release .slotConflict => true
  | .done .slotConflict => true
  | _ => false

/-- The inductive invariant of the two-attempt system: the lock bit equals
lock ownership and ownership is exclusive; the table is the initial one
until exactly one attempt persists; an attempt about to persist saw a
table without the other insert; a failed revalidation means the other
attempt had already persisted; the lock-conflict exit never enters the
release phase, and both attempts cannot exit on the lock conflict. -/
structure Inv (ctx : CommitCtx) (db0 : List Booking) (c : Config) : Prop where
  lock_eq : c.lock = (holdsLock c.a || holdsLock c.b)
  excl : ¬(holdsLock c.a = true ∧ holdsLock c.b = true)
  db_eq : c.db = if persisted c.a || persisted c.b then db0 ++ [mkBooking ctx] else db0
  not_both : ¬(persisted c.a = true ∧ persisted c.b = true)
  persist_a : c.a = .persist → persisted c.b = false
  persist_b : c.b = .persist → persisted c.a = false
  rvfail_a : revalidateFailed c.a = true → persisted c.b = true
  rvfail_b : revalidateFailed c.b = true → persisted c.a = true
  nrlc_a : c.a ≠ .release .lockConflict
  nrlc_b : c.b ≠ .release .lockConflict
  not_both_lc : ¬(c.a = .done .lockConflict ∧ c.b = .done .lockConflict)

/-- Swapping the two attempts. -/
def Config.swap (c : Config) : Config :=
  { lock := c.lock, db := c.db, a := c.b, b := c.a }

theorem stepB_eq_swap (ctx : CommitCtx) (c : Config) :
    stepB ctx c = (stepA ctx c.swap).swap := rfl

theorem Config.swap_swap (c : Config) : c.swap.swap = c := rfl

/-- The invariant is symmetric in the two attempts. -/
theorem Inv.swap {ctx : CommitCtx} {db0 : List Booking} {c : Config}
    (h : Inv ctx db0 c) : Inv ctx db0 c.swap := by
  obtain ⟨lock_eq, excl, db_eq, not_both, persist_a, persist_b, rvfail_a, rvfail_b,
    nrlc_a, nrlc_b, nblc⟩ := h
  refine ⟨?_, ?_, ?_, ?_, persist_b, persist_a, rvfail_b, rvfail_a, nrlc_b, nrlc_a, ?_⟩
  all_goals simp only [Config.swap]
  · rw [lock_eq, Bool.or_comm]
  · tauto
  · rw [db_eq, Bool.or_comm]
  · tauto
  · tauto

/-- One step of attempt A preserves the invariant, provided the slot is
available against the initial table and unavailable once the booking is
inserted. -/
theorem stepA_preserves (ctx : CommitCtx) (db0 : List Booking)
    (h0 : revalidateOk ctx db0 = true)
    (h1 : revalidateOk ctx (db0 ++ [mkBooking ctx]) = false)
    (c : Config) (hInv : Inv ctx db0 c) : Inv ctx db0 (stepA ctx c) := by
  obtain ⟨lock_eq, excl, db_eq, not_both, persist_a, persist_b, rvfail_a, rvfail_b,
    nrlc_a, nrlc_b, nblc⟩ := hInv
  cases ha : c.a with
  | acquire =>
    cases hl : c.lock with
    | true =>
      have hb : holdsLock c.b = true := by
        rw [ha, hl] at lock_eq
        simpa [holdsLock] using lock_eq.symm
      have hstep : stepA ctx c =
          { lock := true, db := c.db, a := .done .lockConflict, b := c.b } := by
        simp [stepA, attemptStep, ha, hl]
      rw [hstep]
      refine ⟨?_, ?_, ?_, ?_, ?_, ?_, ?_, ?_, ?_, nrlc_b, ?_⟩
      · simp [hb]
      · simp [holdsLock]
      · rw [ha] at db_eq
        simpa [persisted] using db_eq
      · simp [persisted]
      · intro h
        simp at h
      · intro _
        rfl
      · intro h
        simp [revalidateFailed] at h
      · intro h
        have hp := rvfail_b h
        rw [ha] at hp
        simp [persisted] at hp
      · simp
      · rintro ⟨-, h2⟩
        rw [h2] at hb
        simp [holdsLock] at hb
    | false =>
      have hbf : holdsLock c.b = false := by
        rw [ha, hl] at lock_eq
        simpa [holdsLock] using lock_eq.symm
      have hstep : stepA ctx c =
          { lock := true, db := c.db, a := .revalidate, b := c.b } := by
        simp [stepA, attemptStep, ha, hl]
      rw [hstep]
      refine ⟨?_, ?_, ?_, ?_, ?_, ?_, ?_, ?_, ?_, nrlc_b, ?_⟩
      · simp [holdsLock]
      · simp [hbf]
      · rw [ha] at db_eq
        simpa [persisted] using db_eq
      · simp [persisted]
      · intro h
        simp at h
      · intro _
        rfl
      · intro h
        simp [revalidateFailed] at h
      · intro h
        have hp := rvfail_b h
        rw [ha] at hp
        simp [persisted] at hp
      · simp
      · rintro ⟨h1x, -⟩
        simp at h1x
  | revalidate =>
    have hbf : holdsLock c.b = false := by
      rw [Bool.eq_false_iff]
      intro h
      exact excl ⟨by rw [ha]; rfl, h⟩
    cases hrv : revalidateOk ctx c.db with
    | true =>
      have hpersb : persisted c.b = false := by
        rw [Bool.eq_false_iff]
        intro hp
        rw [ha, hp] at db_eq
        simp [persisted] at db_eq
        rw [db_eq, h1] at hrv
        simp at hrv
      have hstep : stepA ctx c =
          { lock := c.lock, db := c.db, a := .persist, b := c.b } := by
        simp [stepA, attemptStep, ha, hrv]
      rw [hstep]
      refine ⟨?_, ?_, ?_, ?_, ?_, ?_, ?_, ?_, ?_, nrlc_b, ?_⟩
      · rw [ha] at lock_eq
        simpa [holdsLock] using lock_eq
      · simp [hbf]
      · rw [ha] at db_eq
        simpa [persisted] using db_eq
      · simp [persisted]
      · intro _
        exact hpersb
      · intro _
        rfl
      · intro h
        simp [revalidateFailed] at h
      · intro h
        have hp := rvfail_b h
        rw [ha] at hp
        simp [persisted] at hp
      · simp
      · rintro ⟨h1x, -⟩
        simp at h1x
    | false =>
      have hpersb : persisted c.b = true := by
        by_contra hp
        rw [Bool.not_eq_true] at hp
        rw [ha, hp] at db_eq
        simp [persisted] at db_eq
        rw [db_eq, h0] at hrv
        simp at hrv
      have hstep : stepA ctx c =
          { lock := c.lock, db := c.db, a := .release .slotConflict, b := c.b } := by
        simp [stepA, attemptStep, ha, hrv]
      rw [hstep]
      refine ⟨?_, ?_, ?_, ?_, ?_, ?_, ?_, ?_, ?_, nrlc_b, ?_⟩
      · rw [ha] at lock_eq
        simpa [holdsLock] using lock_eq
      · simp [hbf]
      · rw [ha] at db_eq
        simpa [persisted] using db_eq
      · simp [persisted]
      · intro h
        simp at h
      · intro _
        rfl
      · intro _
        exact hpersb
      · intro h
        have hp := rvfail_b h
        rw [ha] at hp
        simp [persisted] at hp
      · simp
      · rintro ⟨h1x, -⟩
        simp at h1x
  | persist =>
    have hbf : holdsLock c.b = false := by
      rw [Bool.eq_false_iff]
      intro h
      exact excl ⟨by rw [ha]; rfl, h⟩
    have hpb : persisted c.b = false := persist_a ha
    have hdb : c.db = db0 := by
      rw [ha, hpb] at db_eq
      simpa [persisted] using db_eq
    have hstep : stepA ctx c =
        { lock := c.lock, db := c.db ++ [mkBooking ctx], a := .release .success,
          b := c.b } := by
      simp [stepA, attemptStep, ha]
    rw [hstep]
    refine ⟨?_, ?_, ?_, ?_, ?_, ?_, ?_, ?_, ?_, nrlc_b, ?_⟩
    · rw [ha] at lock_eq
      simpa [holdsLock] using lock_eq
    · simp [hbf]
    · simp [persisted, hdb]
    · simp [hpb]
    · intro h
      simp at h
    · intro hb2
      rw [hb2] at hbf
      simp [holdsLock] at hbf
    · intro h
      simp [revalidateFailed] at h
    · intro _
      rfl
    · simp
    · rintro ⟨h1x, -⟩
      simp at h1x
  | release o =>
    have hbf : holdsLock c.b = false := by
      rw [Bool.eq_false_iff]
      intro h
      exact excl ⟨by rw [ha]; rfl, h⟩
    have hstep : stepA ctx c =
        { lock := false, db := c.db, a := .done o, b := c.b } := by
      simp [stepA, attemptStep, ha]
    rw [hstep]
    refine ⟨?_, ?_, ?_, ?_, ?_, ?_, ?_, ?_, ?_, nrlc_b, ?_⟩
    · rw [hbf]
      rfl
    · simp [holdsLock]
    · rw [ha] at db_eq
      cases o <;> simpa [persisted] using db_eq
    · intro hcon
      refine not_both ⟨?_, hcon.2⟩
      rw [ha]
      cases o with
      | success => rfl
      | lockConflict => exact absurd hcon.1 (by simp [persisted])
      | slotConflict => exact absurd hcon.1 (by simp [persisted])
    · intro h
      simp at h
    · intro hb2
      rw [hb2] at hbf
      simp [holdsLock] at hbf
    · intro h
      refine rvfail_a ?_
      rw [ha]
      cases o with
      | slotConflict => rfl
      | success => exact absurd h (by simp [revalidateFailed])
      | lockConflict => exact absurd h (by simp [revalidateFailed])
    · intro h
      have hp := rvfail_b h
      rw [ha] at hp
      cases o with
      | success => rfl
      | lockConflict => simp [persisted] at hp
      | slotConflict => simp [persisted] at hp
    · simp
    · rintro ⟨h1x, -⟩
      injection h1x with ho
      rw [ho] at ha
      exact nrlc_a ha
  | done o =>
    have hstep : stepA ctx c = c := by
      simp only [stepA, attemptStep, ha]
      rw [← ha]
    rw [hstep]
    exact ⟨lock_eq, excl, db_eq, not_both, persist_a, persist_b, rvfail_a, rvfail_b,
      nrlc_a, nrlc_b, nblc⟩

/-- One step of attempt B preserves the invariant (by symmetry). -/
theorem stepB_preserves (ctx : CommitCtx) (db0 : List Booking)
    (h0 : revalidateOk ctx db0 = true)
    (h1 : revalidateOk ctx (db0 ++ [mkBooking ctx]) = false)
    (c : Config) (hInv : Inv ctx db0 c) : Inv ctx db0 (stepB ctx c) := by
  rw [stepB_eq_swap]
  exact (stepA_preserves ctx db0 h0 h1 c.swap hInv.swap).swap

/-- The initial configuration satisfies the invariant. -/
theorem initConfig_inv (ctx : CommitCtx) (db0 : List Booking) :
    Inv ctx db0 (initConfig db0) := by
  refine ⟨rfl, ?_, ?_, ?_, ?_, ?_, ?_, ?_, ?_, ?_, ?_⟩ <;>
    simp [initConfig, holdsLock, persisted, revalidateFailed]

/-- Every interleaving preserves the invariant. -/
theorem run_preserves (ctx : CommitCtx) (db0 : List Booking)
    (h0 : revalidateOk ctx db0 = true)
    (h1 : revalidateOk ctx (db0 ++ [mkBooking ctx]) = false)
    (sched : List Bool) (c : Config) (hInv : Inv ctx db0 c) :
    Inv ctx db0 (run ctx sched c) := by
  induction sched generalizing c with
  | nil => exact hInv
  | cons s rest ih =>
    have hc : run ctx (s :: rest) c =
        run ctx rest (if s then stepA ctx c else stepB ctx c) := rfl
    rw [hc]
    cases s
    · exact ih _ (stepB_preserves ctx db0 h0 h1 c hInv)
    · exact ih _ (stepA_preserves ctx db0 h0 h1 c hInv)

/-- Reading the invariant off a configuration where both attempts have
terminated: exactly one succeeded, the other holds a conflict outcome,
and exactly one booking row was inserted. -/
theorem Inv.final_outcomes {ctx : CommitCtx} {db0 : List Booking} {c : Config}
    (hInv : Inv ctx db0 c) (oa ob : Outcome)
    (ha : c.a = .done oa) (hb : c.b = .done ob) :
    ((oa = .success ∧ (ob = .lockConflict ∨ ob = .slotConflict)) ∨
      (ob = .success ∧ (oa = .lockConflict ∨ oa = .slotConflict))) ∧
    c.db = db0 ++ [mkBooking ctx] := by
  obtain ⟨lock_eq, excl, db_eq, not_both, persist_a, persist_b, rvfail_a, rvfail_b,
    nrlc_a, nrlc_b, nblc⟩ := hInv
  rw [ha, hb] at db_eq not_both rvfail_a rvfail_b nblc
  cases oa with
  | success =>
    cases ob with
    | success => exact absurd ⟨rfl, rfl⟩ not_both
    | lockConflict =>
      refine ⟨Or.inl ⟨rfl, Or.inl rfl⟩, ?_⟩
      simpa [persisted] using db_eq
    | slotConflict =>
      refine ⟨Or.inl ⟨rfl, Or.inr rfl⟩, ?_⟩
      simpa [persisted] using db_eq
  | lockConflict =>
    cases ob with
    | success =>
      refine ⟨Or.inr ⟨rfl, Or.inl rfl⟩, ?_⟩
      simpa [persisted] using db_eq
    | lockConflict => exact absurd ⟨rfl, rfl⟩ nblc
    | slotConflict =>
      have hp := rvfail_b rfl
      simp [persisted] at hp
  | slotConflict =>
    cases ob with
    | success =>
      refine ⟨Or.inr ⟨rfl, Or.inr rfl⟩, ?_⟩
      simpa [persisted] using db_eq
    | lockConflict =>
      have hp := rvfail_a rfl
      simp [persisted] at hp
    | slotConflict =>
      have hp := rvfail_a rfl
      simp [persisted] at hp

/-- Once the committed booking is in the table, the revalidation of a
commit attempt for the same slot fails: the fresh pipeline run filters the
exact slot out because it overlaps the buffered interval of the inserted
booking. -/
theorem revalidateOk_after_insert (ctx : CommitCtx) (db : List Booking)
    (hmem : mkBooking ctx ∈ db)
    (hlt : ctx.startTime < ctx.endTime)
    (hpre : 0 ≤ ctx.settings.preBookingBuffer)
    (hpost : 0 ≤ ctx.settings.postBookingBuffer)
    (hlo : (getTimeWindowInTimezone ctx.nowUTC ctx.settings).startUTC ≤ ctx.startTime)
    (hhi : ctx.startTime ≤
      startOfDay (getTimeWindowInTimezone ctx.nowUTC ctx.settings).endUTC +
        (minutesPerDay - 1)) :
    revalidateOk ctx db = false := by
  obtain ⟨slots, hres⟩ := calculateAvailableSlots_isSome ctx.settings ctx.workingHours
    ctx.blackoutDates db ctx.organizerId ctx.nowUTC
  unfold revalidateOk
  rw [hres]
  show (slots.any fun slot =>
    slot.startTime == ctx.startTime && slot.endTime == ctx.endTime) = false
  rw [List.any_eq_false]
  rintro sl hsl hmatch
  simp only [Bool.and_eq_true, beq_iff_eq] at hmatch
  have hno := calculateAvailableSlots_no_overlap ctx.settings ctx.workingHours
    ctx.blackoutDates db ctx.organizerId ctx.nowUTC slots ctx.settings hres
    (mkBooking ctx) hmem rfl rfl hlo hhi sl hsl
  apply hno
  simp only [mkBooking]
  constructor
  · rw [hmatch.1]
    omega
  · rw [hmatch.2]
    omega

/-- C1: for two concurrent commit attempts targeting the same organizer
and the same slot (one shared context, so one shared lock key), under
every interleaving of their atomic steps that runs both to completion,
exactly one attempt ends in success and the other ends in a conflict (the
fail-fast lock conflict or the revalidation conflict), and exactly one
booking row is inserted. Assumed: non-negative buffers, a proper time
range whose start lies in the fetch window, the slot initially available,
and the lock not expiring during the attempts (no TTL lapse). -/
theorem claim_C1_exactly_one_commit_succeeds (ctx : CommitCtx) (db0 : List Booking)
    (sched : List Bool) (oa ob : Outcome)
    (hlt : ctx.startTime < ctx.endTime)
    (hpre : 0 ≤ ctx.settings.preBookingBuffer)
    (hpost : 0 ≤ ctx.settings.postBookingBuffer)
    (hlo : (getTimeWindowInTimezone ctx.nowUTC ctx.settings).startUTC ≤ ctx.startTime)
    (hhi : ctx.startTime ≤
      startOfDay (getTimeWindowInTimezone ctx.nowUTC ctx.settings).endUTC +
        (minutesPerDay - 1))
    (h0 : revalidateOk ctx db0 = true)
    (hdA : (run ctx sched (initConfig db0)).a = .done oa)
    (hdB : (run ctx sched (initConfig db0)).b = .done ob) :
    ((oa = .success ∧ (ob = .lockConflict ∨ ob = .slotConflict)) ∨
      (ob = .success ∧ (oa = .lockConflict ∨ oa = .slotConflict))) ∧
    (run ctx sched (initConfig db0)).db = db0 ++ [mkBooking ctx] := by
  have h1 : revalidateOk ctx (db0 ++ [mkBooking ctx]) = false :=
    revalidateOk_after_insert ctx _ (by simp) hlt hpre hpost hlo hhi
  exact (run_preserves ctx db0 h0 h1 sched _ (initConfig_inv ctx db0)).final_outcomes
    oa ob hdA hdB

/-- The shared context of the concrete two-attempt scenario: both attempts
book the Monday 00:00-01:00 slot. -/
def cx1Ctx : CommitCtx :=
  { organizerId := "org", settings := cx2Settings, workingHours := cx2WorkingHours,
    blackoutDates := [], nowUTC := 5760, startTime := 5760, endTime := 5820,
    attendantEmail := "attendant@example.com" }

/-- Pipeline run with an empty booking table: both Monday slots free. -/
theorem cx1_eval_empty : calculateAvailableSlots (some cx2Settings) cx2WorkingHours []
    [] "org" 5760 =
    some ([⟨5760, 5820, 60, true⟩, ⟨5820, 5880, 60, true⟩], cx2Settings) := by
  have hg : generateCandidateSlotsUTC (getTimeWindowInTimezone 5760 cx2Settings).startInTZ
      (getTimeWindowInTimezone 5760 cx2Settings).endInTZ
      (getWorkingHoursByUserId cx2WorkingHours "org") cx2Settings =
      [⟨5760, 5820, 60⟩, ⟨5820, 5880, 60⟩] := by
    rw [generateCandidateSlotsUTC_eq _ _ _ _ (by norm_num [cx2Settings])]
    decide
  simp only [calculateAvailableSlots, hg]
  rfl

/-- Pipeline run after the commit was inserted: only the 01:00 slot
remains. -/
theorem cx1_eval_inserted : calculateAvailableSlots (some cx2Settings) cx2WorkingHours []
    [mkBooking cx1Ctx] "org" 5760 =
    some ([⟨5820, 5880, 60, true⟩], cx2Settings) := by
  have hg : generateCandidateSlotsUTC (getTimeWindowInTimezone 5760 cx2Settings).startInTZ
      (getTimeWindowInTimezone 5760 cx2Settings).endInTZ
      (getWorkingHoursByUserId cx2WorkingHours "org") cx2Settings =
      [⟨5760, 5820, 60⟩, ⟨5820, 5880, 60⟩] := by
    rw [generateCandidateSlotsUTC_eq _ _ _ _ (by norm_num [cx2Settings])]
    decide
  simp only [calculateAvailableSlots, hg]
  rfl

/-- The targeted slot is available against the empty table. -/
theorem cx1_rv_empty : revalidateOk cx1Ctx [] = true := by
  unfold revalidateOk
  simp only [cx1Ctx]
  rw [cx1_eval_empty]
  rfl

/-- The targeted slot is gone once the booking is inserted. -/
theorem cx1_rv_inserted : revalidateOk cx1Ctx [mkBooking cx1Ctx] = false := by
  unfold revalidateOk
  rw [show calculateAvailableSlots (some cx1Ctx.settings) cx1Ctx.workingHours
      cx1Ctx.blackoutDates [mkBooking cx1Ctx] cx1Ctx.organizerId cx1Ctx.nowUTC =
      some ([⟨5820, 5880, 60, true⟩], cx2Settings) from cx1_eval_inserted]
  rfl

/-- Evaluating the interleaving where A runs to completion and then B
acquires, revalidates against the inserted booking and exits on the
conflict. -/
theorem cx1_run_eval : run cx1Ctx [true, true, true, true, false, false, false]
    (initConfig []) =
    { lock := false, db := [mkBooking cx1Ctx], a := .done .success,
      b := .done .slotConflict } := by
  simp [run, initConfig, stepA, stepB, attemptStep, cx1_rv_empty, cx1_rv_inserted]

/-- C1 witness: the theorem at the concrete scenario, schedule A,A,A,A
then B,B,B: A succeeds, B gets the revalidation conflict, one row is
inserted. -/
theorem claim_C1_witness :
    ((Outcome.success = Outcome.success ∧
        (Outcome.slotConflict = Outcome.lockConflict ∨
          Outcome.slotConflict = Outcome.slotConflict)) ∨
      (Outcome.slotConflict = Outcome.success ∧
        (Outcome.success = Outcome.lockConflict ∨
          Outcome.success = Outcome.slotConflict))) ∧
    (run cx1Ctx [true, true, true, true, false, false, false] (initConfig [])).db =
      [] ++ [mkBooking cx1Ctx] :=
  claim_C1_exactly_one_commit_succeeds cx1Ctx [] [true, true, true, true, false, false, false]
    .success .slotConflict (by decide) (by decide) (by decide) (by decide) (by decide)
    cx1_rv_empty (by rw [cx1_run_eval]) (by rw [cx1_run_eval])

/-- C5 witness: the window of the concrete UTC scenario spans exactly
maxBookingAdvance days. -/
theorem claim_C5_witness :
    (getTimeWindowInTimezone 5760 cx2Settings).endInTZ =
      (getTimeWindowInTimezone 5760 cx2Settings).startInTZ +
        minutesPerDay * cx2Settings.maxBookingAdvance :=
  (claim_C5_window_spans_max_advance 5760 cx2Settings cx2WorkingHours [] [] "org"
    [⟨5760, 5820, 60, true⟩, ⟨5820, 5880, 60, true⟩] cx2Settings
    (by decide) (by decide) cx1_eval_empty).1.2.1

end Scheduler
